import Mathlib

/-!
Shallow embedding of the ALSA output plugin (`src/alsa/alsa.c`) of the
audacious-plugins repository, together with proofs of the spec's claims
about the ring buffer, the pump (feeder) thread, the playback clock and
the mixer volume control.

Conventions of the embedding:
* C machine integers are modelled as `Nat` / `Int`; all quantities stay far
  below 2^31 (resp. 2^63) in every claim considered, so wrap-around is not
  modelled.  C integer division (truncation toward zero) is `Int.tdiv` on
  `Int` and `/` on `Nat` (the operands are non-negative there).
* The audio byte buffer `alsa_buffer` is a total function `Nat → Nat`
  (index to byte value); only indices below `alsa_buffer_length` are ever
  read or written by the code.
* The blocking calls (`pthread_cond_wait`) are modelled by interleaving:
  each loop iteration of `alsa_write_audio` and of `pump` is one step of a
  transition relation, and the scheduler chooses the interleaving.
* The ALSA handle calls are modelled by their documented meaning:
  `snd_pcm_bytes_to_frames` divides by the frame size,
  `snd_pcm_frames_to_bytes` multiplies by it, `snd_pcm_writei` returns the
  number of frames it accepted (or an error), `snd_pcm_status_get_delay`
  is an input parameter `delay`.
-/

namespace Alsa

/-- Static per-session configuration after `alsa_open_audio`:
`frame_size` is the number of bytes per frame (sample width × channels),
`rate` is `alsa_rate`, `delay_workaround` is `alsa_config_delay_workaround`. -/
structure AlsaConfig where
  frame_size : Nat
  rate : Nat
  delay_workaround : Bool
deriving DecidableEq

/-- Model of `snd_pcm_bytes_to_frames`: bytes to frames, truncating. -/
def snd_pcm_bytes_to_frames (fs : Nat) (bytes : Nat) : Nat := bytes / fs

/-- Model of `snd_pcm_frames_to_bytes`: frames to bytes. -/
def snd_pcm_frames_to_bytes (fs : Nat) (frames : Nat) : Nat := frames * fs

/-- The mutable state of the plugin that the claims are about: the ring
buffer (`alsa_buffer`, `alsa_buffer_length`, `alsa_buffer_data_start`,
`alsa_buffer_data_length`, `alsa_buffer_read_length`), the clock
(`alsa_time` in microseconds, `alsa_paused`, `alsa_paused_time`) and the
pump's quit flag (`pump_quit`). -/
structure AlsaState where
  cap : Nat
  buf : Nat → Nat
  data_start : Nat
  data_length : Nat
  read_length : Nat
  time : Int
  paused : Bool
  paused_time : Int
  quit : Bool

/-- Byte-array `memcpy (b + pos, src, src.length)` on the buffer model. -/
def memcpy (b : Nat → Nat) (pos : Nat) (src : List Nat) : Nat → Nat :=
  fun q => if pos ≤ q ∧ q < pos + src.length then src.getD (q - pos) 0 else b q

/-- The two-`memcpy` copy of one chunk into the ring buffer performed by one
iteration of the loop in `alsa_write_audio` (lines 340–348): the chunk is
placed at `(data_start + data_length) % cap`, wrapping once to offset 0 if
it would cross the end of the buffer. -/
def write_copy (s : AlsaState) (chunk : List Nat) : Nat → Nat :=
  let st := (s.data_start + s.data_length) % s.cap
  if chunk.length > s.cap - st then
    memcpy (memcpy s.buf st (chunk.take (s.cap - st))) 0 (chunk.drop (s.cap - st))
  else
    memcpy s.buf st chunk

/-- Increment of `alsa_time` for `writable` accepted bytes
(`(int64) snd_pcm_bytes_to_frames (..., writable) * 1000000 / alsa_rate`). -/
def write_frames_time (cfg : AlsaConfig) (writable : Nat) : Int :=
  Int.tdiv ((snd_pcm_bytes_to_frames cfg.frame_size writable : Int) * 1000000) cfg.rate

/-- One iteration of the `while (1)` loop of `alsa_write_audio`
(lines 333–365).  It copies `writable = min (cap - data_length, length)`
bytes into the ring, advances `data_length` and `alsa_time`, and either
breaks (remaining data empty — the call returns without waiting) or calls
`start_playback` when still paused and waits (the returned remainder is
consumed by later iterations).  Returns the new state and the bytes still
to be written. -/
def writeIter (cfg : AlsaConfig) (s : AlsaState) (d : List Nat) :
    AlsaState × List Nat :=
  let writable := min (s.cap - s.data_length) d.length
  let rest := d.drop writable
  let s1 : AlsaState := { s with
    buf := write_copy s (d.take writable),
    data_length := s.data_length + writable,
    time := s.time + write_frames_time cfg writable }
  (if rest.isEmpty then s1 else { s1 with paused := false }, rest)

/-- The chunk-size computation at the top of each `pump` iteration
(lines 63–73): at most a frame-aligned quarter of the buffer, at most the
queued bytes, at most the bytes up to the physical end of the buffer, and
under the delay workaround at most 10 ms worth of frames. -/
def pumpChunkSize (cfg : AlsaConfig) (s : AlsaState) : Nat :=
  let l0 := snd_pcm_frames_to_bytes cfg.frame_size
    (snd_pcm_bytes_to_frames cfg.frame_size (s.cap / 4))
  let l1 := min l0 s.data_length
  let l2 := min l1 (s.cap - s.data_start)
  if cfg.delay_workaround then
    min l2 (snd_pcm_frames_to_bytes cfg.frame_size (cfg.rate / 100))
  else l2

/-- Result of the `snd_pcm_writei` call in `pump`: either it accepted
`frames` frames, or it failed (and recovery either succeeded, failed, or
was skipped because of quit/pause — all of which land at the `FAILED`
label with `length = 0`). -/
inductive DeviceWriteResult where
  | ok (frames : Nat)
  | err
deriving DecidableEq

/-- Bytes accounted after the device write: `snd_pcm_frames_to_bytes` of
the returned frame count, or 0 on the error path (lines 95–104). -/
def accepted_bytes (cfg : AlsaConfig) (res : DeviceWriteResult) : Nat :=
  match res with
  | .ok frames => snd_pcm_frames_to_bytes cfg.frame_size frames
  | .err => 0

/-- Tail of one `pump` iteration (lines 104–111): advance `data_start`
modulo the capacity by the accounted bytes, shrink `data_length`, clear
`read_length`. -/
def pumpIter (cfg : AlsaConfig) (res : DeviceWriteResult) (s : AlsaState) :
    AlsaState :=
  let bytes := accepted_bytes cfg res
  { s with
    data_start := (s.data_start + bytes) % s.cap,
    data_length := s.data_length - bytes,
    read_length := 0 }

/-- The bytes the device actually accepts from one `pump` iteration: the
first `accepted_bytes` bytes starting at `buffer + data_start` (the pointer
passed to `snd_pcm_writei`, line 89). -/
def deviceChunk (cfg : AlsaConfig) (res : DeviceWriteResult) (s : AlsaState) :
    List Nat :=
  (List.range (accepted_bytes cfg res)).map (fun i => s.buf (s.data_start + i))

/-- Control shape of the `pump` loop (lines 55–112): `none` when the loop
exits (only when `pump_quit` is set), `some s` unchanged when paused (the
thread waits), otherwise one transfer iteration. -/
def pump_step (cfg : AlsaConfig) (res : DeviceWriteResult) (s : AlsaState) :
    Option AlsaState :=
  if s.quit then none
  else if s.paused then some s
  else some (pumpIter cfg res s)

/-- Model of `start_playback` (lines 118–130): resumes/prepares the PCM and clears
`alsa_paused` (the `FAILED` label clears it on every path). -/
def start_playback (s : AlsaState) : AlsaState := { s with paused := false }

/-- Model of `real_output_time` (lines 134–166): `alsa_time` minus the time worth of
the not-yet-played audio — queued minus in-flight bytes as frames, plus the
hardware delay reported by `snd_pcm_status_get_delay` — scaled by
1000000 / rate, the whole converted from microseconds to milliseconds.
All divisions are C truncating division. -/
def real_output_time (cfg : AlsaConfig) (delay : Int) (s : AlsaState) : Int :=
  Int.tdiv
    (s.time -
      Int.tdiv
        ((Int.tdiv ((s.data_length : Int) - (s.read_length : Int)) cfg.frame_size
          + delay) * 1000000)
        cfg.rate)
    1000

/-- Model of `alsa_output_time` (lines 413–426): the frozen `alsa_paused_time` while
paused, otherwise `real_output_time`. -/
def alsa_output_time (cfg : AlsaConfig) (delay : Int) (s : AlsaState) : Int :=
  if s.paused then s.paused_time else real_output_time cfg delay s

/-- Model of `alsa_written_time` (lines 403–411): `alsa_time / 1000`. -/
def alsa_written_time (s : AlsaState) : Int := Int.tdiv s.time 1000

/-- Model of `alsa_set_written_time` (lines 395–401): the counter becomes `1000 * time`. -/
def alsa_set_written_time (t : Int) (s : AlsaState) : AlsaState :=
  { s with time := 1000 * t }

/-- Model of `alsa_flush` (lines 428–449): set `alsa_time` to the seek target in
microseconds, enter the paused/buffering state with `alsa_paused_time`
equal to the target, drop the hardware buffer, wait until no transfer is
in flight, and reset the ring-buffer pointers to empty.  The state below
is the one observed when the call returns (the wait loop has ended, so
`read_length` has been cleared to 0 by `pump` before the reset). -/
def alsa_flush (t : Int) (s : AlsaState) : AlsaState :=
  { s with
    time := t * 1000,
    paused := true,
    paused_time := t,
    data_start := 0,
    data_length := 0 }

/-- Model of `alsa_pause` (lines 451–467): with a true argument it sets
`alsa_paused` and snapshots `alsa_paused_time` from `real_output_time`
(`delay` is the hardware delay at that instant) and pauses the PCM; with
a false argument the body is skipped entirely — the function only
broadcasts the condition variable, leaving the session state unchanged. -/
def alsa_pause (cfg : AlsaConfig) (delay : Int) (p : Bool) (s : AlsaState) :
    AlsaState :=
  if p then
    { s with paused := true, paused_time := real_output_time cfg delay s }
  else s

/-- Integer (`int64`) variant of `snd_pcm_frames_to_bytes` as used in
`alsa_open_audio` line 279. -/
def snd_pcm_frames_to_bytes_i (fs : Nat) (frames : Int) : Int := frames * fs

/-- The ring-buffer capacity computed by `alsa_open_audio` (lines 272–280):
`hard_buffer = frames * 1000 / rate`, `soft_buffer = max (target / 2,
target - hard_buffer)`, capacity = `frames_to_bytes (soft_buffer * rate /
1000)`; `target` is `aud_cfg->output_buffer_size` in milliseconds and
`frames` the negotiated hardware buffer size. -/
def alsa_open_buffer_length (fs rate frames : Nat) (target : Int) : Int :=
  let hard_buffer : Int := Int.tdiv ((frames : Int) * 1000) rate
  let soft_buffer : Int := max (Int.tdiv target 2) (target - hard_buffer)
  snd_pcm_frames_to_bytes_i fs (Int.tdiv (soft_buffer * rate) 1000)

/-- The capacity formula in the words of the spec (§4.3): the ring-buffer
capacity is `software_buffer_ms × rate` converted to frames-worth of
bytes, where `software_buffer_ms = max (target_buffer_ms / 2,
target_buffer_ms − hardware_buffer_ms)` and `hardware_buffer_ms` is
derived from the negotiated hardware buffer size in frames as
`frames × 1000 / rate`. -/
def spec_buffer_capacity (fs rate frames : Nat) (target : Int) : Int :=
  let hardware_buffer_ms : Int := Int.tdiv ((frames : Int) * 1000) rate
  let software_buffer_ms : Int :=
    max (Int.tdiv target 2) (target - hardware_buffer_ms)
  Int.tdiv (software_buffer_ms * rate) 1000 * fs

/-- State of the configured mixer element as far as the code touches it:
whether `snd_mixer_selem_is_playback_mono`, whether it
`has_playback_switch` and whether the switch is
`has_playback_switch_joined`, the stored per-channel volumes
(`SND_MIXER_SCHN_MONO` and `SND_MIXER_SCHN_FRONT_LEFT` share the storage
`vol_left`, `SND_MIXER_SCHN_FRONT_RIGHT` is `vol_right`) and the
per-channel switch values. -/
structure MixerElem where
  is_mono : Bool
  has_switch : Bool
  switch_joined : Bool
  vol_left : Int
  vol_right : Int
  sw_left : Bool
  sw_right : Bool
deriving DecidableEq

/-- Model of `alsa_set_volume` (lines 544–587) on the mixer element: a mono element
gets `max left right` on its single channel and, if it has a playback
switch, the switch set to `max left right != 0`; a stereo element gets the
channels independently, with a joined switch driven by `max left right !=
0` and independent switches by the per-channel values. -/
def alsa_set_volume (left right : Int) (m : MixerElem) : MixerElem :=
  if m.is_mono then
    let m1 := { m with vol_left := max left right }
    if m1.has_switch then
      { m1 with sw_left := decide (max left right ≠ 0) }
    else m1
  else
    let m1 := { m with vol_left := left, vol_right := right }
    if m1.has_switch then
      if m1.switch_joined then
        { m1 with sw_left := decide (max left right ≠ 0) }
      else
        { m1 with sw_left := decide (left ≠ 0), sw_right := decide (right ≠ 0) }
    else m1

/-- Model of `alsa_get_volume` (lines 511–542) on the mixer element: a mono element
reports its single channel for both sides, a stereo element reports the
two channels. -/
def alsa_get_volume (m : MixerElem) : Int × Int :=
  if m.is_mono then (m.vol_left, m.vol_left) else (m.vol_left, m.vol_right)

/-- The output-time formula in the words of the spec (§4.2):
`written_time − (frames_for (queued_bytes − in_flight_bytes) +
hardware_reported_delay_frames) × 1000000 / sample_rate`, converted from
microseconds to milliseconds. -/
def spec_output_time (cfg : AlsaConfig) (delay : Int) (s : AlsaState) : Int :=
  let frames_not_played :=
    Int.tdiv ((s.data_length : Int) - (s.read_length : Int)) cfg.frame_size + delay
  Int.tdiv (s.time - Int.tdiv (frames_not_played * 1000000) cfg.rate) 1000

/-- The queued audio of the ring buffer as a byte list: the bytes of the
region `[data_start, data_start + data_length) mod cap`. -/
def ringContents (s : AlsaState) : List Nat :=
  (List.range s.data_length).map (fun i => s.buf ((s.data_start + i) % s.cap))

/-- One externally triggered operation on an open session, as far as it
touches the embedded state.  Blocking waits are modelled by splitting the
operations into their loop iterations (`write_step` is one iteration of
the `alsa_write_audio` loop, `pump_transfer` one transfer iteration of
`pump`); `drain_wake` is the `start_playback` call issued by `alsa_drain`
or by a blocking write. -/
inductive AlsaOp where
  | write_step (d : List Nat)
  | pump_transfer (res : DeviceWriteResult)
  | flush (t : Int)
  | set_written_time (t : Int)
  | pause_op (delay : Int) (p : Bool)
  | drain_wake
deriving DecidableEq

/-- Effect of one operation on the session state. -/
def applyOp (cfg : AlsaConfig) : AlsaOp → AlsaState → AlsaState
  | .write_step d, s => (writeIter cfg s d).1
  | .pump_transfer res, s => pumpIter cfg res s
  | .flush t, s => alsa_flush t s
  | .set_written_time t, s => alsa_set_written_time t s
  | .pause_op delay p, s => alsa_pause cfg delay p s
  | .drain_wake, s => start_playback s

/-- Effect of a sequence of operations, first operation first. -/
def applyOps (cfg : AlsaConfig) (ops : List AlsaOp) (s : AlsaState) : AlsaState :=
  ops.foldl (fun s op => applyOp cfg op s) s

/-- Producer/feeder system: the shared state, the bytes of the current
`alsa_write_audio` call not yet copied into the ring, the concatenation of
all bytes the device has accepted, and the concatenation of all bytes ever
passed to `alsa_write_audio`. -/
structure PumpSys where
  st : AlsaState
  pending : List Nat
  delivered : List Nat
  written : List Nat

/-- Interleaved small-step semantics of the producer (`alsa_write_audio`)
and the feeder (`pump`), flush-free.  `write_call` starts a new write once
the previous one has returned; `write_iter` is one iteration of the write
loop; `pump_iter` is one transfer iteration of `pump` (only taken with the
quit flag clear and not paused, as in the loop head), whose device write
accepts at most the `snd_pcm_bytes_to_frames` of the chunk it was given. -/
inductive PumpStep (cfg : AlsaConfig) : PumpSys → PumpSys → Prop where
  | write_call (s : AlsaState) (d del wr : List Nat) :
      PumpStep cfg ⟨s, [], del, wr⟩ ⟨s, d, del, wr ++ d⟩
  | write_iter (s : AlsaState) (p del wr : List Nat) :
      PumpStep cfg ⟨s, p, del, wr⟩
        ⟨(writeIter cfg s p).1, (writeIter cfg s p).2, del, wr⟩
  | pump_iter (s : AlsaState) (p del wr : List Nat) (res : DeviceWriteResult)
      (hq : s.quit = false) (hpause : s.paused = false)
      (hres : ∀ f, res = .ok f →
        f ≤ snd_pcm_bytes_to_frames cfg.frame_size (pumpChunkSize cfg s)) :
      PumpStep cfg ⟨s, p, del, wr⟩
        ⟨pumpIter cfg res s, p, del ++ deviceChunk cfg res s, wr⟩

/-- Reflexive-transitive closure of `PumpStep`. -/
inductive PumpSteps (cfg : AlsaConfig) : PumpSys → PumpSys → Prop where
  | refl (a : PumpSys) : PumpSteps cfg a a
  | tail {a b c : PumpSys} :
      PumpSteps cfg a b → PumpStep cfg b c → PumpSteps cfg a c

/-- System invariant: the ring-buffer geometry is well formed and the
bytes accepted by the device, followed by the bytes queued in the ring,
followed by the bytes of the current write call still to be copied, are
exactly the bytes ever written, in order. -/
def SysInv (sys : PumpSys) : Prop :=
  0 < sys.st.cap ∧ sys.st.data_start < sys.st.cap ∧
    sys.st.data_length ≤ sys.st.cap ∧
    sys.delivered ++ ringContents sys.st ++ sys.pending = sys.written

/-! Helper lemmas about lists and modular ring positions. -/

/-- Reading a `take` through `getD` below the cut reads the original list. -/
lemma list_getD_take (l : List Nat) (n i : Nat) (h : i < n) :
    (l.take n).getD i 0 = l.getD i 0 := by
  induction l generalizing n i with
  | nil => simp
  | cons a t ih =>
    cases n with
    | zero => omega
    | succ n =>
      cases i with
      | zero => simp
      | succ i => simpa using ih n i (by omega)

/-- Reading a `drop` through `getD` shifts the index. -/
lemma list_getD_drop (l : List Nat) (n i : Nat) :
    (l.drop n).getD i 0 = l.getD (n + i) 0 := by
  induction l generalizing n with
  | nil => simp
  | cons a t ih =>
    cases n with
    | zero => simp
    | succ n =>
      have h1 : n + 1 + i = (n + i) + 1 := by omega
      rw [List.drop_succ_cons, h1, List.getD_cons_succ]
      exact ih n

/-- Reading every position of a list through `getD` rebuilds the list. -/
lemma list_map_getD_range (c : List Nat) :
    (List.range c.length).map (fun i => c.getD i 0) = c := by
  induction c with
  | nil => simp
  | cons a t ih =>
    rw [List.length_cons, List.range_succ_eq_map, List.map_cons, List.map_map]
    refine congrArg₂ _ rfl ?_
    calc List.map ((fun i => (a :: t).getD i 0) ∘ Nat.succ) (List.range t.length)
        = List.map (fun i => t.getD i 0) (List.range t.length) := by
          apply List.map_congr_left
          intro x hx
          simp
      _ = t := ih

/-- Ring positions are injective over one revolution. -/
lemma ring_pos_inj (cap a i k : Nat) (hi : i < cap) (hk : k < cap)
    (h : (a + i) % cap = (a + k) % cap) : i = k := by
  have h2 : i ≡ k [MOD cap] := Nat.ModEq.add_left_cancel' a h
  have h3 : i % cap = k % cap := h2
  rwa [Nat.mod_eq_of_lt hi, Nat.mod_eq_of_lt hk] at h3

/-- A chunk that fits in the free space cannot alias a queued position:
if position `i` of the queued region equals position `j` of the fresh
region the copy writes to, the fit hypothesis forces `i = data_length + j`,
contradicting `i < data_length`. -/
lemma write_fresh_disjoint (s : AlsaState) (clen i j : Nat)
    (hfit : s.data_length + clen ≤ s.cap)
    (hi : i < s.data_length) (hj : j < clen)
    (h : (s.data_start + i) % s.cap =
      ((s.data_start + s.data_length) % s.cap + j) % s.cap) : False := by
  rw [Nat.mod_add_mod, Nat.add_assoc] at h
  have := ring_pos_inj s.cap s.data_start i (s.data_length + j)
    (by omega) (by omega) h
  omega

/-- Byte `j` of the chunk lands at ring position `data_length + j`. -/
lemma write_copy_getD_new (s : AlsaState) (c : List Nat) (j : Nat)
    (hcap : 0 < s.cap) (hfit : s.data_length + c.length ≤ s.cap)
    (hj : j < c.length) :
    write_copy s c ((s.data_start + (s.data_length + j)) % s.cap) =
      c.getD j 0 := by
  have hstlt : (s.data_start + s.data_length) % s.cap < s.cap :=
    Nat.mod_lt _ hcap
  have hq : (s.data_start + (s.data_length + j)) % s.cap =
      ((s.data_start + s.data_length) % s.cap + j) % s.cap := by
    rw [Nat.mod_add_mod, Nat.add_assoc]
  simp only [write_copy, memcpy, ite_apply]
  rw [hq]
  set st := (s.data_start + s.data_length) % s.cap with hstdef
  by_cases hwrap : c.length > s.cap - st
  · rw [if_pos hwrap]
    by_cases hlt : st + j < s.cap
    · rw [Nat.mod_eq_of_lt hlt]
      rw [if_neg (by simp only [List.length_drop]; omega)]
      rw [if_pos (by simp only [List.length_take]; omega)]
      have h1 : st + j - st = j := by omega
      rw [h1, list_getD_take _ _ _ (by omega)]
    · push_neg at hlt
      have h2cap : st + j - s.cap < s.cap := by omega
      rw [Nat.mod_eq_sub_mod hlt, Nat.mod_eq_of_lt h2cap]
      rw [if_pos (by simp only [List.length_drop]; omega)]
      have h1 : st + j - s.cap - 0 = st + j - s.cap := by omega
      rw [h1, list_getD_drop]
      refine congrArg₂ _ ?_ rfl
      omega
  · push_neg at hwrap
    rw [if_neg (by omega)]
    have hlt : st + j < s.cap := by omega
    rw [Nat.mod_eq_of_lt hlt]
    rw [if_pos (by constructor <;> omega)]
    refine congrArg₂ _ ?_ rfl
    omega

/-- The copy leaves every queued ring position untouched. -/
lemma write_copy_getD_old (s : AlsaState) (c : List Nat) (i : Nat)
    (hcap : 0 < s.cap) (hfit : s.data_length + c.length ≤ s.cap)
    (hi : i < s.data_length) :
    write_copy s c ((s.data_start + i) % s.cap) =
      s.buf ((s.data_start + i) % s.cap) := by
  have hstlt : (s.data_start + s.data_length) % s.cap < s.cap :=
    Nat.mod_lt _ hcap
  have hqlt : (s.data_start + i) % s.cap < s.cap := Nat.mod_lt _ hcap
  simp only [write_copy, memcpy, ite_apply]
  set q := (s.data_start + i) % s.cap with hqdef
  set st := (s.data_start + s.data_length) % s.cap with hstdef
  by_cases hwrap : c.length > s.cap - st
  · rw [if_pos hwrap]
    rw [if_neg ?hdrop]
    case hdrop =>
      rintro ⟨-, hq2⟩
      rw [List.length_drop, Nat.zero_add] at hq2
      refine write_fresh_disjoint s c.length i (s.cap - st + q) hfit hi
        (by omega) ?_
      have h1 : st + (s.cap - st + q) = s.cap + q := by omega
      rw [← hstdef, h1, Nat.add_mod_left, Nat.mod_eq_of_lt hqlt]
    rw [if_neg ?htake]
    case htake =>
      rintro ⟨hq1, -⟩
      refine write_fresh_disjoint s c.length i (q - st) hfit hi
        (by omega) ?_
      have h1 : st + (q - st) = q := by omega
      rw [← hstdef, h1, Nat.mod_eq_of_lt hqlt]
  · rw [if_neg (by omega)]
    rw [if_neg ?hflat]
    case hflat =>
      rintro ⟨hq1, hq2⟩
      refine write_fresh_disjoint s c.length i (q - st) hfit hi
        (by omega) ?_
      have h1 : st + (q - st) = q := by omega
      rw [← hstdef, h1, Nat.mod_eq_of_lt hqlt]

/-! Effect of one write iteration and one pump iteration on the queued
audio, as byte lists. -/

/-- The queued audio only depends on the buffer geometry fields. -/
lemma ringContents_congr (a b : AlsaState) (hcap : a.cap = b.cap)
    (hbuf : a.buf = b.buf) (hst : a.data_start = b.data_start)
    (hlen : a.data_length = b.data_length) :
    ringContents a = ringContents b := by
  unfold ringContents
  rw [hcap, hbuf, hst, hlen]

/-- The geometry fields of the state after one write iteration. -/
lemma writeIter_fields (cfg : AlsaConfig) (s : AlsaState) (d : List Nat) :
    (writeIter cfg s d).1.cap = s.cap ∧
    (writeIter cfg s d).1.buf =
      write_copy s (d.take (min (s.cap - s.data_length) d.length)) ∧
    (writeIter cfg s d).1.data_start = s.data_start ∧
    (writeIter cfg s d).1.data_length =
      s.data_length + min (s.cap - s.data_length) d.length ∧
    (writeIter cfg s d).2 = d.drop (min (s.cap - s.data_length) d.length) := by
  simp only [writeIter]
  split <;> simp

/-- One write iteration appends exactly the copied chunk to the queued
audio. -/
lemma ringContents_writeIter (cfg : AlsaConfig) (s : AlsaState) (d : List Nat)
    (hcap : 0 < s.cap) (hlen : s.data_length ≤ s.cap) :
    ringContents ((writeIter cfg s d).1) =
      ringContents s ++ d.take (min (s.cap - s.data_length) d.length) := by
  obtain ⟨h1, h2, h3, h4, -⟩ := writeIter_fields cfg s d
  set w := min (s.cap - s.data_length) d.length with hw
  set c := d.take w with hc
  have hclen : c.length = w := by
    rw [hc, List.length_take]
    omega
  have hfit : s.data_length + c.length ≤ s.cap := by omega
  have h0 : ringContents ((writeIter cfg s d).1) =
      ringContents { s with
        buf := write_copy s c
        data_length := s.data_length + w } :=
    ringContents_congr _ _ h1 h2 h3 h4
  rw [h0]
  show (List.range (s.data_length + w)).map
      (fun i => write_copy s c ((s.data_start + i) % s.cap)) =
    ringContents s ++ c
  rw [List.range_add, List.map_append, List.map_map]
  refine congrArg₂ _ ?_ ?_
  · apply List.map_congr_left
    intro i hi
    exact write_copy_getD_old s c i hcap hfit (List.mem_range.mp hi)
  · conv_rhs => rw [← list_map_getD_range c]
    rw [hclen]
    apply List.map_congr_left
    intro j hj
    simp only [Function.comp_apply]
    exact write_copy_getD_new s c j hcap hfit
      (by rw [hclen]; exact List.mem_range.mp hj)

/-- The pump never accounts more bytes than the chunk it computed. -/
lemma accepted_le_chunk (cfg : AlsaConfig) (res : DeviceWriteResult)
    (s : AlsaState)
    (hres : ∀ f, res = .ok f →
      f ≤ snd_pcm_bytes_to_frames cfg.frame_size (pumpChunkSize cfg s)) :
    accepted_bytes cfg res ≤ pumpChunkSize cfg s := by
  cases res with
  | ok f =>
    have h1 := hres f rfl
    calc f * cfg.frame_size
        ≤ pumpChunkSize cfg s / cfg.frame_size * cfg.frame_size :=
          Nat.mul_le_mul_right _ h1
      _ ≤ pumpChunkSize cfg s := Nat.div_mul_le_self _ _
  | err => exact Nat.zero_le _

/-- The pump chunk never exceeds the queued bytes. -/
lemma pumpChunkSize_le_len (cfg : AlsaConfig) (s : AlsaState) :
    pumpChunkSize cfg s ≤ s.data_length := by
  simp only [pumpChunkSize]
  split <;> omega

/-- The pump chunk never crosses the physical end of the buffer. -/
lemma pumpChunkSize_le_wrap (cfg : AlsaConfig) (s : AlsaState) :
    pumpChunkSize cfg s ≤ s.cap - s.data_start := by
  simp only [pumpChunkSize]
  split <;> omega

/-- The bytes the device accepts are the first accounted bytes of the
queued audio. -/
lemma deviceChunk_take (cfg : AlsaConfig) (res : DeviceWriteResult)
    (s : AlsaState)
    (hwrap : accepted_bytes cfg res ≤ s.cap - s.data_start)
    (hlen : accepted_bytes cfg res ≤ s.data_length) :
    deviceChunk cfg res s = (ringContents s).take (accepted_bytes cfg res) := by
  unfold deviceChunk ringContents
  rw [← List.map_take, List.take_range, Nat.min_eq_left hlen]
  apply List.map_congr_left
  intro i hi
  have hi2 : i < accepted_bytes cfg res := List.mem_range.mp hi
  rw [Nat.mod_eq_of_lt (by omega)]

/-- One pump iteration removes the accounted bytes from the front of the
queued audio. -/
lemma ringContents_pumpIter (cfg : AlsaConfig) (res : DeviceWriteResult)
    (s : AlsaState) :
    ringContents (pumpIter cfg res s) =
      (ringContents s).drop (accepted_bytes cfg res) := by
  apply List.ext_getElem
  · simp [ringContents, pumpIter]
  · intro i h1 h2
    simp only [ringContents, pumpIter, List.getElem_drop, List.getElem_map,
      List.getElem_range]
    rw [Nat.mod_add_mod, Nat.add_assoc]

/-- Every step of the producer/feeder system preserves the invariant. -/
lemma pumpStep_inv (cfg : AlsaConfig) (a b : PumpSys) (hinv : SysInv a)
    (h : PumpStep cfg a b) : SysInv b := by
  cases h with
  | write_call s d del wr =>
    obtain ⟨h1, h2, h3, h4⟩ := hinv
    refine ⟨h1, h2, h3, ?_⟩
    simp only at h4 ⊢
    rw [← h4]
    simp
  | write_iter s p del wr =>
    obtain ⟨h1, h2, h3, h4⟩ := hinv
    obtain ⟨f1, f2, f3, f4, f5⟩ := writeIter_fields cfg s p
    simp only at h1 h2 h3 h4
    refine ⟨?_, ?_, ?_, ?_⟩
    · show 0 < (writeIter cfg s p).1.cap
      rw [f1]; exact h1
    · show (writeIter cfg s p).1.data_start < (writeIter cfg s p).1.cap
      rw [f3, f1]; exact h2
    · show (writeIter cfg s p).1.data_length ≤ (writeIter cfg s p).1.cap
      rw [f4, f1]; omega
    · dsimp only
      rw [f5, ringContents_writeIter cfg s p h1 h3, ← h4]
      simp only [List.append_assoc, List.take_append_drop]
  | pump_iter s p del wr res hq hpause hres =>
    obtain ⟨h1, h2, h3, h4⟩ := hinv
    have hB := accepted_le_chunk cfg res s hres
    have hBlen : accepted_bytes cfg res ≤ s.data_length :=
      le_trans hB (pumpChunkSize_le_len cfg s)
    have hBwrap : accepted_bytes cfg res ≤ s.cap - s.data_start :=
      le_trans hB (pumpChunkSize_le_wrap cfg s)
    simp only at h1 h2 h3 h4
    refine ⟨h1, Nat.mod_lt _ h1, by show s.data_length - _ ≤ s.cap; omega, ?_⟩
    dsimp only
    rw [ringContents_pumpIter cfg res s, deviceChunk_take cfg res s hBwrap hBlen,
      ← h4]
    conv_lhs => rw [List.append_assoc del, List.take_append_drop]

/-- The invariant holds along every run. -/
lemma pumpSteps_inv (cfg : AlsaConfig) (a b : PumpSys) (hinv : SysInv a)
    (h : PumpSteps cfg a b) : SysInv b := by
  induction h with
  | refl => exact hinv
  | tail hs hstep ih => exact pumpStep_inv cfg _ _ ih hstep

/-! The claims. -/

/-- C1: along every interleaving of `alsa_write_audio` iterations and
`pump` transfer iterations from a freshly opened session (empty ring,
nothing written, no flush), the bytes accepted by the device, followed by
the bytes still queued in the ring, followed by the bytes of the current
write call still to be copied, are exactly the bytes passed to write, in
order — no byte lost or duplicated; in particular once the ring and the
current write call are drained, the device received exactly the written
byte sequence. -/
theorem write_pump_no_byte_lost (cfg : AlsaConfig) (s0 s1 : PumpSys)
    (hcap : 0 < s0.st.cap) (hstart : s0.st.data_start = 0)
    (hlen : s0.st.data_length = 0) (hpend : s0.pending = [])
    (hdel : s0.delivered = []) (hwr : s0.written = [])
    (h : PumpSteps cfg s0 s1) :
    s1.delivered ++ ringContents s1.st ++ s1.pending = s1.written ∧
      (s1.st.data_length = 0 → s1.pending = [] →
        s1.delivered = s1.written) := by
  have hinv0 : SysInv s0 := by
    refine ⟨hcap, by omega, by omega, ?_⟩
    simp [hdel, hpend, hwr, ringContents, hlen]
  have hinv1 := pumpSteps_inv cfg s0 s1 hinv0 h
  refine ⟨hinv1.2.2.2, fun hl hp => ?_⟩
  have h2 := hinv1.2.2.2
  simpa [ringContents, hl, hp] using h2

/-- Configuration used by the concrete runs below: one byte per frame,
1000 Hz, no delay workaround. -/
def demo_cfg : AlsaConfig := ⟨1, 1000, false⟩

/-- A 4-byte open session already playing (not paused, nothing queued). -/
def demo_s0 : AlsaState :=
  { cap := 4
    buf := fun _ => 0
    data_start := 0
    data_length := 0
    read_length := 0
    time := 0
    paused := false
    paused_time := 0
    quit := false }

/-- The freshly opened producer/feeder system for the concrete run. -/
def demo_sys0 : PumpSys := ⟨demo_s0, [], [], []⟩

/-- Witness for C1: a concrete run — one write call of bytes `[6, 7]`, one
write iteration, two successful one-frame transfers and one failed
transfer — reaches a state where the theorem's hypotheses hold and the
device received exactly `[6, 7]`. -/
theorem write_pump_no_byte_lost_witness :
    ∃ s1 : PumpSys, PumpSteps demo_cfg demo_sys0 s1 ∧
      (s1.delivered ++ ringContents s1.st ++ s1.pending = s1.written ∧
        (s1.st.data_length = 0 → s1.pending = [] →
          s1.delivered = s1.written)) ∧
      s1.delivered = [6, 7] ∧ s1.written = [6, 7] := by
  have h0 : PumpSteps demo_cfg demo_sys0 demo_sys0 := PumpSteps.refl _
  have h1 := PumpSteps.tail h0 (PumpStep.write_call demo_s0 [6, 7] [] [])
  have h2 := PumpSteps.tail h1 (PumpStep.write_iter demo_s0 [6, 7] [] ([] ++ [6, 7]))
  have h3 := PumpSteps.tail h2 (PumpStep.pump_iter _ _ _ _ (.ok 1) (by decide)
    (by decide) (by
      intro f hf
      simp only [DeviceWriteResult.ok.injEq] at hf
      subst hf
      decide))
  have h4 := PumpSteps.tail h3 (PumpStep.pump_iter _ _ _ _ (.ok 1) (by decide)
    (by decide) (by
      intro f hf
      simp only [DeviceWriteResult.ok.injEq] at hf
      subst hf
      decide))
  have h5 := PumpSteps.tail h4 (PumpStep.pump_iter _ _ _ _ .err (by decide)
    (by decide) (fun f hf => nomatch hf))
  exact ⟨_, h5,
    write_pump_no_byte_lost demo_cfg demo_sys0 _ (by decide) (by decide)
      (by decide) rfl rfl rfl h5,
    by decide, by decide⟩

/-- C2: whenever the session is not paused, `alsa_output_time` returns
exactly the spec's output-time formula — written time minus the time worth
of (queued bytes minus in-flight bytes, as frames) plus the hardware
delay, times 1000000 divided by the sample rate, converted from
microseconds to milliseconds. -/
theorem output_time_formula (cfg : AlsaConfig) (delay : Int) (s : AlsaState)
    (h : s.paused = false) :
    alsa_output_time cfg delay s = spec_output_time cfg delay s := by
  simp [alsa_output_time, h, real_output_time, spec_output_time]

/-- A concrete mid-playback state: 1 s of audio written, 100 bytes queued,
none in flight. -/
def demo_play : AlsaState :=
  { cap := 1000
    buf := fun _ => 0
    data_start := 0
    data_length := 100
    read_length := 0
    time := 1000000
    paused := false
    paused_time := 0
    quit := false }

/-- Witness for C2 at `demo_play` with a 4-byte frame and hardware delay
of 25 frames. -/
theorem output_time_formula_witness :
    alsa_output_time ⟨4, 1000, false⟩ 25 demo_play =
      spec_output_time ⟨4, 1000, false⟩ 25 demo_play :=
  output_time_formula ⟨4, 1000, false⟩ 25 demo_play rfl

/-- C4: immediately after `alsa_flush t`, `alsa_written_time` returns `t`
and the ring-buffer occupancy `data_length` is 0. -/
theorem flush_written_time_empty (t : Int) (s : AlsaState) :
    alsa_written_time (alsa_flush t s) = t ∧
      (alsa_flush t s).data_length = 0 := by
  constructor
  · show Int.tdiv (t * 1000) 1000 = t
    exact Int.mul_tdiv_cancel t (by decide)
  · rfl

/-- C6: the ring-buffer capacity computed by `alsa_open_audio` equals the
spec's formula: `software_buffer_ms × rate` as frames-worth of bytes, with
`software_buffer_ms = max (target / 2) (target − hardware_buffer_ms)` and
`hardware_buffer_ms = frames × 1000 / rate`. -/
theorem open_buffer_capacity_spec (fs rate frames : Nat) (target : Int) :
    alsa_open_buffer_length fs rate frames target =
      spec_buffer_capacity fs rate frames target := rfl

/-- C3 (counterexample): `alsa_pause false` does not resume playback.
After `pause(true)` on a concrete playing session, a `pause(false)` call
leaves the session still paused and `get_output_time` still returns the
frozen snapshot — the time does not resume advancing at `pause(false)`,
contradicting the claim. -/
theorem pause_false_counterexample :
    (alsa_pause ⟨4, 1000, false⟩ 0 false
      (alsa_pause ⟨4, 1000, false⟩ 0 true demo_play)).paused = true ∧
    alsa_output_time ⟨4, 1000, false⟩ 0
        (alsa_pause ⟨4, 1000, false⟩ 0 false
          (alsa_pause ⟨4, 1000, false⟩ 0 true demo_play)) =
      (alsa_pause ⟨4, 1000, false⟩ 0 true demo_play).paused_time := by
  constructor
  · rfl
  · decide

/-- C3 (amended): after `alsa_pause true` the session is paused and every
`alsa_output_time` call returns the snapshot taken at the moment of
pausing (whatever the hardware delay is later); `alsa_pause false` leaves
the session state entirely unchanged (it only broadcasts the condition
variable), so the snapshot keeps being returned; playback resumes — the
paused flag is cleared — only when `start_playback` runs, i.e. when a
blocking write or a drain restarts playback. -/
theorem pause_freeze_amended (cfg : AlsaConfig) (delay delay2 : Int)
    (s : AlsaState) :
    (alsa_pause cfg delay true s).paused = true ∧
    alsa_output_time cfg delay2 (alsa_pause cfg delay true s) =
      real_output_time cfg delay s ∧
    alsa_pause cfg delay2 false (alsa_pause cfg delay true s) =
      alsa_pause cfg delay true s ∧
    (start_playback (alsa_pause cfg delay true s)).paused = false :=
  ⟨rfl, rfl, rfl, rfl⟩

/-- C5 (counterexample): `alsa_set_written_time` is not a flush, yet it
moves `alsa_time` backwards on a concrete session — `written_time` is not
monotone across all non-flush operations. -/
theorem written_time_set_counterexample :
    (∀ t : Int, AlsaOp.set_written_time 0 ≠ AlsaOp.flush t) ∧
    (applyOp demo_cfg (AlsaOp.set_written_time 0) demo_play).time <
      demo_play.time := by
  refine ⟨fun t h => (nomatch h), by decide⟩

/-- One non-reset operation never decreases `alsa_time`. -/
lemma applyOp_time_mono (cfg : AlsaConfig) (op : AlsaOp) (s : AlsaState)
    (hf : ∀ t, op ≠ AlsaOp.flush t)
    (hs : ∀ t, op ≠ AlsaOp.set_written_time t) :
    s.time ≤ (applyOp cfg op s).time := by
  cases op with
  | write_step d =>
    show s.time ≤ (writeIter cfg s d).1.time
    have htime : (writeIter cfg s d).1.time = s.time +
        write_frames_time cfg (min (s.cap - s.data_length) d.length) := by
      simp only [writeIter]
      split <;> rfl
    have hnn : 0 ≤ write_frames_time cfg
        (min (s.cap - s.data_length) d.length) := by
      refine Int.tdiv_nonneg ?_ (Int.ofNat_nonneg _)
      positivity
    omega
  | pump_transfer res => exact le_refl _
  | flush t => exact absurd rfl (hf t)
  | set_written_time t => exact absurd rfl (hs t)
  | pause_op delay p =>
    show s.time ≤ (alsa_pause cfg delay p s).time
    unfold alsa_pause
    split <;> exact le_refl _
  | drain_wake => exact le_refl _

/-- C5 (amended): across every sequence of operations on an open session,
`alsa_time` (the `written_time` counter, in microseconds) is monotonically
non-decreasing, except that the explicit reset operations — `alsa_flush t`
and `alsa_set_written_time t` — set it to the target `t` (in
milliseconds, stored as microseconds). -/
theorem written_time_monotone_amended (cfg : AlsaConfig) (ops : List AlsaOp)
    (s : AlsaState)
    (hops : ∀ op ∈ ops, (∀ t, op ≠ AlsaOp.flush t) ∧
      (∀ t, op ≠ AlsaOp.set_written_time t)) :
    s.time ≤ (applyOps cfg ops s).time ∧
    (∀ (t : Int) (s2 : AlsaState),
      (applyOp cfg (AlsaOp.flush t) s2).time = t * 1000) ∧
    (∀ (t : Int) (s2 : AlsaState),
      (applyOp cfg (AlsaOp.set_written_time t) s2).time = 1000 * t) := by
  refine ⟨?_, fun t s2 => rfl, fun t s2 => rfl⟩
  induction ops generalizing s with
  | nil => exact le_refl _
  | cons op rest ih =>
    have h1 := applyOp_time_mono cfg op s
      (hops op (List.mem_cons_self op rest)).1
      (hops op (List.mem_cons_self op rest)).2
    have h2 := ih (applyOp cfg op s)
      (fun o ho => hops o (List.mem_cons_of_mem op ho))
    exact le_trans h1 h2

/-- Witness for C5 (amended) on a concrete run of two non-reset
operations. -/
theorem written_time_monotone_amended_witness :
    demo_play.time ≤
      (applyOps demo_cfg
        [AlsaOp.pump_transfer DeviceWriteResult.err, AlsaOp.drain_wake]
        demo_play).time :=
  (written_time_monotone_amended demo_cfg
    [AlsaOp.pump_transfer DeviceWriteResult.err, AlsaOp.drain_wake] demo_play
    (by
      intro op hop
      simp only [List.mem_cons, List.not_mem_nil, or_false] at hop
      rcases hop with rfl | rfl
      · exact ⟨fun t h => (nomatch h), fun t h => (nomatch h)⟩
      · exact ⟨fun t h => (nomatch h), fun t h => (nomatch h)⟩)).1

/-- C7: when the device write fails (and recovery fails or is skipped),
the pump accounts the chunk as zero bytes transferred — `data_start` and
`data_length` are unchanged and `read_length` is cleared — and the loop
continues; the pump loop exits only through the quit flag. -/
theorem pump_error_continues (cfg : AlsaConfig) (res : DeviceWriteResult)
    (s : AlsaState) (hq : s.quit = false) (hp : s.paused = false)
    (hst : s.data_start < s.cap) :
    pump_step cfg DeviceWriteResult.err s = some { s with read_length := 0 } ∧
    (∀ s2 : AlsaState, pump_step cfg res s2 = none ↔ s2.quit = true) := by
  constructor
  · unfold pump_step
    rw [if_neg (by simp [hq]), if_neg (by simp [hp])]
    refine congrArg some ?_
    simp only [pumpIter, accepted_bytes]
    rw [Nat.add_zero, Nat.sub_zero, Nat.mod_eq_of_lt hst]
  · intro s2
    by_cases hq2 : s2.quit = true
    · simp [pump_step, hq2]
    · have hq3 : s2.quit = false := by
        revert hq2
        cases s2.quit <;> simp
      by_cases hp2 : s2.paused = true <;> simp [pump_step, hq3, hp2]

/-- Witness for C7 on a concrete playing session. -/
theorem pump_error_continues_witness :
    pump_step demo_cfg DeviceWriteResult.err demo_play =
      some { demo_play with read_length := 0 } :=
  (pump_error_continues demo_cfg DeviceWriteResult.err demo_play rfl rfl
    (by decide)).1

/-- C8: a write of length 0 is a no-op — the single loop iteration copies
nothing, leaves the whole state (buffer, `data_start`, `data_length`,
`alsa_time`, pause flag) unchanged, and breaks out of the loop
immediately, so the call returns without blocking. -/
theorem write_zero_length_noop (cfg : AlsaConfig) (s : AlsaState) :
    writeIter cfg s [] = (s, []) := by
  have hbuf : write_copy s ([] : List Nat) = s.buf := by
    funext q
    simp only [write_copy, List.length_nil, List.take_nil, List.drop_nil,
      memcpy, ite_apply]
    rw [if_neg (by omega), if_neg (by omega)]
  simp [writeIter, hbuf, write_frames_time, snd_pcm_bytes_to_frames]

/-- C9: on a mono mixer element, `alsa_set_volume 80 60` stores
`max 80 60 = 80` on the single channel and, when a playback switch
exists, switches it on because `max 80 60 ≠ 0`; `alsa_get_volume` then
reports `(80, 80)`. -/
theorem mono_mixer_volume (m : MixerElem) (h : m.is_mono = true) :
    alsa_get_volume (alsa_set_volume 80 60 m) = (80, 80) ∧
    (m.has_switch = true → (alsa_set_volume 80 60 m).sw_left = true) := by
  have hmax : (max (80 : Int) 60) = 80 := by decide
  by_cases hs : m.has_switch = true
  · constructor
    · simp [alsa_set_volume, alsa_get_volume, h, hs, hmax]
    · intro _
      simp [alsa_set_volume, h, hs, hmax]
  · have hs2 : m.has_switch = false := by
      revert hs
      cases m.has_switch <;> simp
    constructor
    · simp [alsa_set_volume, alsa_get_volume, h, hs2, hmax]
    · intro hcon
      rw [hs2] at hcon
      exact nomatch hcon

/-- A mono mixer element with a playback switch, initially muted. -/
def demo_mixer : MixerElem :=
  { is_mono := true
    has_switch := true
    switch_joined := false
    vol_left := 0
    vol_right := 0
    sw_left := false
    sw_right := false }

/-- Witness for C9 at the concrete mono element. -/
theorem mono_mixer_volume_witness :
    alsa_get_volume (alsa_set_volume 80 60 demo_mixer) = (80, 80) ∧
    (alsa_set_volume 80 60 demo_mixer).sw_left = true :=
  ⟨(mono_mixer_volume demo_mixer rfl).1,
    (mono_mixer_volume demo_mixer rfl).2 rfl⟩

/-- C10: `alsa_flush t` leaves the session in the paused (buffering)
state with the paused-time snapshot equal to `t`, so `alsa_output_time`
returns exactly `t` after the flush; the paused flag is cleared again only
by `start_playback`, i.e. by a subsequent blocking write or drain. -/
theorem flush_enters_buffering_state (cfg : AlsaConfig) (delay t : Int)
    (s : AlsaState) :
    (alsa_flush t s).paused = true ∧
    (alsa_flush t s).paused_time = t ∧
    alsa_output_time cfg delay (alsa_flush t s) = t ∧
    (start_playback (alsa_flush t s)).paused = false :=
  ⟨rfl, rfl, rfl, rfl⟩

end Alsa
